import Mathlib

/-!
Verification of the Wasmi executor dispatch loop
(`crates/wasmi/src/engine/executor/instrs.rs`) against its
natural-language specification.

The executor is embedded shallowly: instruction words become an inductive
type, the executor state (instruction pointer, frame register window, call
stack, cached instance, store) becomes a structure, each handler from the
source becomes a Lean function on that state, and the dispatch loop becomes
a step function iterated with an explicit step budget.  Handlers whose code
lives in sibling modules that are not part of the source under inspection
(the return/call/copy/branch handlers and the untyped value primitives)
are modelled from the specification and marked as such in their doc
comments.  Rust panics (`unreachable!`, `expect`) are modelled as a
distinguished `crash` outcome, which is disjoint from the trap (`Err`)
outcome.
-/

namespace Wasmi

/-- Typed trap codes surfaced by the engine (spec section 6, wire-stable names). -/
inductive TrapCode where
  | UnreachableCodeReached
  | MemoryOutOfBounds
  | TableOutOfBounds
  | IndirectCallToNull
  | IntegerDivisionByZero
  | IntegerOverflow
  | InvalidConversionToInteger
  | StackOverflow
  | BadSignature
  | OutOfFuel
  | GrowthOperationLimited
deriving DecidableEq

/-- Value cell: a 64-bit bag-of-bits held as a natural number; typed
operations reduce modulo the relevant width. -/
abbrev UntypedVal := Nat

/-- Modelled from the spec: reading the low 32 bits of a cell as a signed
two-complement `i32` (the untyped value primitives live outside the
inspected source). -/
def toI32 (x : UntypedVal) : Int :=
  if x % 2 ^ 32 < 2 ^ 31 then ((x % 2 ^ 32 : Nat) : Int)
  else ((x % 2 ^ 32 : Nat) : Int) - (2 ^ 32 : Int)

/-- Modelled from the spec: conversion of a boolean comparison result into
an `i32` cell holding 0 or 1. -/
def ofBool (b : Bool) : UntypedVal := if b then 1 else 0

/-- Modelled from the spec: `i32.and` on the low 32 bits of two cells. -/
def i32_and (x y : UntypedVal) : UntypedVal := (x % 2 ^ 32) &&& (y % 2 ^ 32)

/-- Modelled from the spec: `i32.or` on the low 32 bits of two cells. -/
def i32_or (x y : UntypedVal) : UntypedVal := (x % 2 ^ 32) ||| (y % 2 ^ 32)

/-- Modelled from the spec: `i32.xor` on the low 32 bits of two cells. -/
def i32_xor (x y : UntypedVal) : UntypedVal := (x % 2 ^ 32) ^^^ (y % 2 ^ 32)

/-- Modelled from the spec: `i32.add`, wrapping modulo `2 ^ 32`. -/
def i32_add (x y : UntypedVal) : UntypedVal := (x % 2 ^ 32 + y % 2 ^ 32) % 2 ^ 32

/-- Modelled from the spec: `i32.sub`, wrapping modulo `2 ^ 32`. -/
def i32_sub (x y : UntypedVal) : UntypedVal :=
  (x % 2 ^ 32 + (2 ^ 32 - y % 2 ^ 32)) % 2 ^ 32

/-- Modelled from the spec: `i32.mul`, wrapping modulo `2 ^ 32`. -/
def i32_mul (x y : UntypedVal) : UntypedVal := (x % 2 ^ 32 * (y % 2 ^ 32)) % 2 ^ 32

/-- Modelled from the spec: `i32.wrap_i64`, keeping the low 32 bits. -/
def i32_wrap_i64 (x : UntypedVal) : UntypedVal := x % 2 ^ 32

/-- Modelled from the spec: `i32.div_u` with a divisor whose type excludes
zero (the `NonZero` immediate of the `DivUImm16` instruction family). -/
def i32_div_u (x : UntypedVal) (d : {n : Nat // 0 < n}) : UntypedVal :=
  x % 2 ^ 32 / d.val

/-- Modelled from the spec: `i32.rem_u` with a nonzero divisor. -/
def i32_rem_u (x : UntypedVal) (d : {n : Nat // 0 < n}) : UntypedVal :=
  x % 2 ^ 32 % d.val

/-- Modelled from the spec: `i64.div_u` with a nonzero divisor. -/
def i64_div_u (x : UntypedVal) (d : {n : Nat // 0 < n}) : UntypedVal :=
  x % 2 ^ 64 / d.val

/-- Modelled from the spec: `i64.rem_u` with a nonzero divisor. -/
def i64_rem_u (x : UntypedVal) (d : {n : Nat // 0 < n}) : UntypedVal :=
  x % 2 ^ 64 % d.val

/-- Fused `i32.and` + `i32.eqz` (instrs.rs, `UntypedValueExt for UntypedVal`). -/
def i32_and_eqz (x y : UntypedVal) : UntypedVal := ofBool (toI32 (i32_and x y) == 0)

/-- Fused `i32.or` + `i32.eqz` (instrs.rs, `UntypedValueExt for UntypedVal`). -/
def i32_or_eqz (x y : UntypedVal) : UntypedVal := ofBool (toI32 (i32_or x y) == 0)

/-- Fused `i32.xor` + `i32.eqz` (instrs.rs, `UntypedValueExt for UntypedVal`). -/
def i32_xor_eqz (x y : UntypedVal) : UntypedVal := ofBool (toI32 (i32_xor x y) == 0)

/-- Instruction words of the executor, embedding the variants of the
dispatch `match` that the claims require: the head words dispatched by
handlers embedded here, and all sixteen non-executable trailer words of
instrs.rs lines 1170-1185.  Register indices live in the signed 16-bit
domain and are modelled as integers. -/
inductive Instruction where
  | Trap (code : TrapCode)
  | ConsumeFuel (blockFuel : Nat)
  | Return
  | Branch (offset : Int)
  | CallInternal (func : Nat)
  | CallImported (func : Nat)
  | Copy (result value : Int)
  | RefFunc (result : Int) (func : Nat)
  | I32Add (result lhs rhs : Int)
  | I32Sub (result lhs rhs : Int)
  | I32Mul (result lhs rhs : Int)
  | I32And (result lhs rhs : Int)
  | I32Or (result lhs rhs : Int)
  | I32Xor (result lhs rhs : Int)
  | I32AndEqz (result lhs rhs : Int)
  | I32OrEqz (result lhs rhs : Int)
  | I32XorEqz (result lhs rhs : Int)
  | I32AddImm16 (result reg : Int) (imm : UntypedVal)
  | I32SubImm16Rev (result reg : Int) (imm : UntypedVal)
  | I32DivUImm16 (result reg : Int) (imm : {n : Nat // 0 < n})
  | I32RemUImm16 (result reg : Int) (imm : {n : Nat // 0 < n})
  | I64DivUImm16 (result reg : Int) (imm : {n : Nat // 0 < n})
  | I64RemUImm16 (result reg : Int) (imm : {n : Nat // 0 < n})
  | I32WrapI64 (result input : Int)
  | TableIdx (index : Nat)
  | DataSegmentIdx (index : Nat)
  | ElementSegmentIdx (index : Nat)
  | Const32 (value : Nat)
  | I64Const32 (value : Nat)
  | F64Const32 (value : Nat)
  | BranchTableTarget (results : Int) (offset : Int)
  | BranchTableTargetNonOverlapping (results : Int) (offset : Int)
  | Register (reg : Int)
  | Register2 (regs : Int × Int)
  | Register3 (regs : Int × Int × Int)
  | RegisterAndImm32 (reg : Int) (imm : Nat)
  | RegisterSpan (head : Int) (len : Nat)
  | RegisterList (regs : List Int)
  | CallIndirectParams (index : Int) (table : Nat)
  | CallIndirectParamsImm16 (index : Nat) (table : Nat)
deriving DecidableEq

/-- Decides whether an instruction word is one of the sixteen
non-executable trailer words of instrs.rs lines 1170-1185. -/
def isTrailer : Instruction → Bool
  | .TableIdx _ | .DataSegmentIdx _ | .ElementSegmentIdx _
  | .Const32 _ | .I64Const32 _ | .F64Const32 _
  | .BranchTableTarget _ _ | .BranchTableTargetNonOverlapping _ _
  | .Register _ | .Register2 _ | .Register3 _
  | .RegisterAndImm32 _ _ | .RegisterSpan _ _
  | .RegisterList _ | .CallIndirectParams _ _ | .CallIndirectParamsImm16 _ _ => true
  | _ => false

/-- Call frame: function index, instruction pointer (the resume point for
suspended frames, the seeded entry point for the top frame), and the
frame's register window. -/
structure Frame where
  func : Nat
  instrPtr : Nat
  regs : Int → UntypedVal

/-- Cached instance view: the entities of the active instance; only the
function view is needed by the embedded handlers. -/
structure Cache where
  funcs : List Nat

/-- The mutable store visible to the executor: the fuel counter, the flag
recording whether fuel metering was enabled, and the globals, memories and
tables owned by the store. -/
structure Store where
  fuel : Nat
  fuelEnabled : Bool
  globals : List UntypedVal
  memories : List (List Nat)
  tables : List (List UntypedVal)

/-- Executor state: the program (one instruction array per function), the
current function, the instruction pointer `ip`, the frame register window
`sp` (modelled as the total map `regs`), the suspended caller frames, the
cached instance and the store. -/
structure ExecState where
  prog : List (List Instruction)
  func : Nat
  ip : Nat
  regs : Int → UntypedVal
  callStack : List Frame
  cache : Cache
  store : Store

/-- Pointwise register-file update. -/
def setReg (regs : Int → UntypedVal) (r : Int) (v : UntypedVal) : Int → UntypedVal :=
  fun x => if x = r then v else regs x

/-- Sets the register `r` to `value` (instrs.rs `set_register`). -/
def set_register (s : ExecState) (r : Int) (v : UntypedVal) : ExecState :=
  { s with regs := setReg s.regs r v }

/-- Shifts the instruction pointer by `skip` words (instrs.rs `next_instr_at`). -/
def next_instr_at (s : ExecState) (skip : Nat) : ExecState :=
  { s with ip := s.ip + skip }

/-- Shifts the instruction pointer to the next instruction (instrs.rs `next_instr`). -/
def next_instr (s : ExecState) : ExecState := next_instr_at s 1

/-- Reads the instruction word at position `p` of the current body. -/
def fetchInstrAt (s : ExecState) (p : Nat) : Option Instruction :=
  match s.prog.get? s.func with
  | none => none
  | some body => body.get? p

/-- Reads the instruction word at the dispatch position `ip`. -/
def fetchInstr (s : ExecState) : Option Instruction := fetchInstrAt s s.ip

/-- Fetches the `Const32` parameter word at `ip + offset`
(instrs.rs `fetch_const32`); a word that is not `Const32` hits the
`unreachable!` panic, modelled as an error message. -/
def fetch_const32 (s : ExecState) (offset : Nat) : Except String Nat :=
  match fetchInstrAt s (s.ip + offset) with
  | some (.Const32 value) => .ok value
  | _ => .error "expected an Instruction::Const32 instruction word"

/-- Looks up the function handle at `index` in the cached instance
(instrs.rs `get_entity!` generated `get_func`, before its `unwrap_or_else`). -/
def get_func (s : ExecState) (index : Nat) : Option Nat := s.cache.funcs.get? index

/-- Executes a generic unary instruction (instrs.rs `execute_unary`). -/
def execute_unary (s : ExecState) (result input : Int)
    (op : UntypedVal → UntypedVal) : ExecState :=
  next_instr (set_register s result (op (s.regs input)))

/-- Executes a generic binary instruction (instrs.rs `execute_binary_v2`). -/
def execute_binary_v2 (s : ExecState) (result lhs rhs : Int)
    (op : UntypedVal → UntypedVal → UntypedVal) : ExecState :=
  next_instr (set_register s result (op (s.regs lhs) (s.regs rhs)))

/-- Executes a generic binary instruction (instrs.rs `execute_binary`). -/
def execute_binary (s : ExecState) (result lhs rhs : Int)
    (op : UntypedVal → UntypedVal → UntypedVal) : ExecState :=
  execute_binary_v2 s result lhs rhs op

/-- Executes a generic binary instruction with a 16-bit immediate as the
right operand (instrs.rs `execute_binary_imm16` via `execute_binary_imm16_v2`);
the immediate is carried already converted to its cell value. -/
def execute_binary_imm16 (s : ExecState) (result reg : Int) (imm : UntypedVal)
    (op : UntypedVal → UntypedVal → UntypedVal) : ExecState :=
  next_instr (set_register s result (op (s.regs reg) imm))

/-- Executes a generic binary instruction with reversed operands: the
immediate is the left operand and the register the right operand
(instrs.rs `execute_binary_imm16_rev`). -/
def execute_binary_imm16_rev (s : ExecState) (result reg : Int) (imm : UntypedVal)
    (op : UntypedVal → UntypedVal → UntypedVal) : ExecState :=
  next_instr (set_register s result (op imm (s.regs reg)))

/-- Executes an infallible unsigned div/rem instruction whose immediate
divisor has a `NonZero` type (instrs.rs `execute_divrem_imm16`). -/
def execute_divrem_imm16 (s : ExecState) (result reg : Int)
    (imm : {n : Nat // 0 < n})
    (op : UntypedVal → {n : Nat // 0 < n} → UntypedVal) : ExecState :=
  next_instr (set_register s result (op (s.regs reg) imm))

/-- Outcome of one dispatch step: continue the loop, return past the root
frame (success), pause for a host-function invocation (success), trap with
a typed code (the `Err` early-exit, carrying the state as the handler left
it), or crash (a Rust panic, which is not a trap). -/
inductive StepResult where
  | cont (s : ExecState)
  | retHost (s : ExecState)
  | callHost (s : ExecState)
  | trap (c : TrapCode) (s : ExecState)
  | crash (msg : String)

/-- Executes a Wasm `unreachable` (instrs.rs `execute_trap`): early-exits
with the given trap code, leaving the whole state untouched. -/
def execute_trap (s : ExecState) (c : TrapCode) : StepResult := .trap c s

/-- Handles a non-executable trailer word reaching the dispatch position
(instrs.rs `invalid_instruction_word`): traps with `UnreachableCodeReached`. -/
def invalid_instruction_word (s : ExecState) : StepResult :=
  execute_trap s .UnreachableCodeReached

/-- Modelled from the spec: the fuel subsystem's `consume_fuel_unchecked`
(the `Fuel` type lives outside the inspected source): subtracts `n` from
the counter, trapping with `OutOfFuel` on underflow; the enablement flag is
not consulted. -/
def consume_fuel_unchecked (st : Store) (n : Nat) : Except TrapCode Store :=
  if n ≤ st.fuel then .ok { st with fuel := st.fuel - n } else .error .OutOfFuel

/-- Executes `Instruction::ConsumeFuel` (instrs.rs `execute_consume_fuel`):
consume the block fuel, then advance `ip`; the error early-exits before
the `ip` update. -/
def execute_consume_fuel (s : ExecState) (n : Nat) : StepResult :=
  match consume_fuel_unchecked s.store n with
  | .error c => .trap c s
  | .ok st => .cont (next_instr { s with store := st })

/-- Modelled from the spec: the return handler of the return module (not
under the inspected source): pop the top frame, restore the caller's
`ip`, window and function; popping past the root frame signals success to
the outer driver. -/
def execute_return (s : ExecState) : StepResult :=
  match s.callStack with
  | [] => .retHost s
  | fr :: rest =>
      .cont { s with func := fr.func, ip := fr.instrPtr, regs := fr.regs,
                     callStack := rest }

/-- Modelled from the spec: the internal-call handler of the call module
(not under the inspected source): push a frame recording the caller's
resume point and window, then enter the callee at `ip = 0` with a fresh
window. -/
def execute_call_internal (s : ExecState) (f : Nat) : StepResult :=
  .cont { s with func := f, ip := 0, regs := fun _ => 0,
                 callStack := Frame.mk s.func (s.ip + 1) s.regs :: s.callStack }

/-- Modelled from the spec: the imported/host-call handler (not under the
inspected source): pause execution and hand control back to the outer
driver with a host sentinel. -/
def execute_call_imported (s : ExecState) (_f : Nat) : StepResult :=
  .callHost s

/-- Modelled from the spec: the copy handler of the copy module (not under
the inspected source): transfer one register value. -/
def execute_copy (s : ExecState) (result value : Int) : ExecState :=
  next_instr (set_register s result (s.regs value))

/-- Executes `Instruction::RefFunc` (instrs.rs `execute_ref_func`): the
`get_func` lookup panics when the entity is missing from the cached
instance (the `unreachable!` of the `get_entity!` macro), modelled as a
crash. -/
def execute_ref_func (s : ExecState) (result : Int) (f : Nat) : StepResult :=
  match get_func s f with
  | none => .crash "missing Func for the currently used instance"
  | some fn => .cont (next_instr (set_register s result fn))

/-- One iteration of the dispatch loop body: the `match` of
`Executor::execute` over the instruction word at `ip`. -/
def dispatch (s : ExecState) : Instruction → StepResult
  | .Trap c => execute_trap s c
  | .ConsumeFuel n => execute_consume_fuel s n
  | .Return => execute_return s
  | .Branch off => .cont { s with ip := (((s.ip : Int) + off).toNat) }
  | .CallInternal f => execute_call_internal s f
  | .CallImported f => execute_call_imported s f
  | .Copy result value => .cont (execute_copy s result value)
  | .RefFunc result f => execute_ref_func s result f
  | .I32Add result lhs rhs => .cont (execute_binary s result lhs rhs i32_add)
  | .I32Sub result lhs rhs => .cont (execute_binary s result lhs rhs i32_sub)
  | .I32Mul result lhs rhs => .cont (execute_binary s result lhs rhs i32_mul)
  | .I32And result lhs rhs => .cont (execute_binary s result lhs rhs i32_and)
  | .I32Or result lhs rhs => .cont (execute_binary s result lhs rhs i32_or)
  | .I32Xor result lhs rhs => .cont (execute_binary s result lhs rhs i32_xor)
  | .I32AndEqz result lhs rhs => .cont (execute_binary s result lhs rhs i32_and_eqz)
  | .I32OrEqz result lhs rhs => .cont (execute_binary s result lhs rhs i32_or_eqz)
  | .I32XorEqz result lhs rhs => .cont (execute_binary s result lhs rhs i32_xor_eqz)
  | .I32AddImm16 result reg imm => .cont (execute_binary_imm16 s result reg imm i32_add)
  | .I32SubImm16Rev result reg imm =>
      .cont (execute_binary_imm16_rev s result reg imm i32_sub)
  | .I32DivUImm16 result reg imm => .cont (execute_divrem_imm16 s result reg imm i32_div_u)
  | .I32RemUImm16 result reg imm => .cont (execute_divrem_imm16 s result reg imm i32_rem_u)
  | .I64DivUImm16 result reg imm => .cont (execute_divrem_imm16 s result reg imm i64_div_u)
  | .I64RemUImm16 result reg imm => .cont (execute_divrem_imm16 s result reg imm i64_rem_u)
  | .I32WrapI64 result input => .cont (execute_unary s result input i32_wrap_i64)
  | .TableIdx _ | .DataSegmentIdx _ | .ElementSegmentIdx _
  | .Const32 _ | .I64Const32 _ | .F64Const32 _
  | .BranchTableTarget _ _ | .BranchTableTargetNonOverlapping _ _
  | .Register _ | .Register2 _ | .Register3 _
  | .RegisterAndImm32 _ _ | .RegisterSpan _ _
  | .RegisterList _ | .CallIndirectParams _ _ | .CallIndirectParamsImm16 _ _ =>
      invalid_instruction_word s

/-- One dispatch step: decode the word at `ip` and invoke its handler.
Reading outside the current body is undefined behaviour in the source and
is modelled as a crash. -/
def step (s : ExecState) : StepResult :=
  match fetchInstr s with
  | none => .crash "instruction pointer out of bounds"
  | some i => dispatch s i

/-- Result of running the dispatch loop: `ok` corresponds to the `Ok(())`
return of `Executor::execute` (carrying the final state for analysis),
`err` to the `Err` early-exit with its typed trap code, `crashed` to a
Rust panic, and `outOfSteps` to exhaustion of the explicit step budget of
this embedding (the Rust loop has no such budget). -/
inductive RunResult where
  | ok (s : ExecState)
  | err (c : TrapCode) (s : ExecState)
  | crashed (msg : String)
  | outOfSteps (s : ExecState)

/-- The dispatch loop of `Executor::execute`: repeat `step` until a final
outcome, with an explicit step budget. -/
def execute : Nat → ExecState → RunResult
  | 0, s => .outOfSteps s
  | n + 1, s =>
      match step s with
      | .cont s2 => execute n s2
      | .retHost s2 => .ok s2
      | .callHost s2 => .ok s2
      | .trap c s2 => .err c s2
      | .crash msg => .crashed msg

/-- Iterates `step` through exactly `k` continuing steps. -/
def stepIter : Nat → ExecState → Option ExecState
  | 0, s => some s
  | k + 1, s =>
      match step s with
      | .cont s2 => stepIter k s2
      | _ => none

/-- The public entry point `execute_instrs`: requires a pre-seeded top
frame; with no call frame on the call stack the executor panics with the
assertion of `Executor::new` (the stack's `instance_expect`, modelled from
the spec, likewise requires a frame).  With a top frame present, `sp` and
`ip` are seeded from it and the dispatch loop runs. -/
def execute_instrs (prog : List (List Instruction)) (cache : Cache) (store : Store)
    (frames : List Frame) (budget : Nat) : RunResult :=
  match frames with
  | [] => .crashed "must have call frame on the call stack"
  | top :: rest =>
      execute budget
        { prog := prog, func := top.func, ip := top.instrPtr, regs := top.regs,
          callStack := rest, cache := cache, store := store }

/-- Decides whether an optional instruction word is a `Const32` word. -/
def isConst32 : Option Instruction → Bool
  | some (.Const32 _) => true
  | _ => false

/-- Decides whether a step outcome is an `Err` carrying the
`UnreachableCodeReached` trap code. -/
def isUnreachableTrap : StepResult → Bool
  | .trap .UnreachableCodeReached _ => true
  | _ => false

theorem setReg_same (f : Int → UntypedVal) (r : Int) (v : UntypedVal) :
    setReg f r v r = v := by
  simp [setReg]

theorem setReg_ne (f : Int → UntypedVal) (r : Int) (v : UntypedVal) (x : Int)
    (h : x ≠ r) : setReg f r v x = f x := by
  simp [setReg, h]

theorem ofBool_eq_zero_or_one (b : Bool) : ofBool b = 0 ∨ ofBool b = 1 := by
  cases b <;> simp [ofBool]

theorem ofBool_eq_one_iff (b : Bool) : ofBool b = 1 ↔ b = true := by
  cases b <;> simp [ofBool]

theorem toI32_eq_zero_iff (v : Nat) (hv : v < 2 ^ 32) : toI32 v = 0 ↔ v = 0 := by
  have hmod : v % 2 ^ 32 = v := Nat.mod_eq_of_lt hv
  rw [toI32, hmod]
  by_cases h : v < 2 ^ 31
  · rw [if_pos h]
    exact Nat.cast_eq_zero
  · rw [if_neg h]
    have hv3 : ((v : Nat) : Int) < (2 : Int) ^ 32 := by exact_mod_cast hv
    constructor
    · intro hh
      exfalso
      linarith
    · intro hh
      exact absurd (by rw [hh]; positivity) h

/-- Claim C2: every non-executable trailer instruction word at the dispatch
position makes the dispatch loop trap with `UnreachableCodeReached`, and
that dispatch step leaves the whole executor state — registers, call stack
and store included — exactly as it was (the trap carries the unmodified
input state `s`). -/
theorem claim_C2_trailer_word_traps (s : ExecState) (w : Instruction)
    (hw : fetchInstr s = some w) (ht : isTrailer w = true) :
    step s = .trap TrapCode.UnreachableCodeReached s := by
  unfold step
  rw [hw]
  cases w <;>
    simp_all [isTrailer, dispatch, invalid_instruction_word, execute_trap]

/-- Concrete executor state whose dispatch position holds a `Const32`
trailer word. -/
def c2State : ExecState :=
  { prog := [[Instruction.Const32 5]], func := 0, ip := 0, regs := fun _ => 0,
    callStack := [], cache := ⟨[]⟩, store := ⟨0, false, [], [], []⟩ }

theorem claim_C2_witness :
    fetchInstr c2State = some (Instruction.Const32 5) ∧
    isTrailer (Instruction.Const32 5) = true ∧
    step c2State = .trap TrapCode.UnreachableCodeReached c2State :=
  ⟨rfl, rfl, claim_C2_trailer_word_traps c2State (Instruction.Const32 5) rfl rfl⟩

/-- Claim C3: `ConsumeFuel n` subtracts `n` from the per-store fuel
counter without consulting the `fuelEnabled` flag (the state `s`, and with
it the flag, is arbitrary and the flag appears in neither branch's
condition): with at least `n` fuel the step succeeds with the counter
decreased by `n` and `ip` advanced by exactly one word; with less than `n`
fuel the step traps with `OutOfFuel` and the state — `ip` included — is
left untouched. -/
theorem claim_C3_consume_fuel (s : ExecState) (n : Nat)
    (hi : fetchInstr s = some (Instruction.ConsumeFuel n)) :
    (n ≤ s.store.fuel →
      step s = .cont { s with store := { s.store with fuel := s.store.fuel - n },
                              ip := s.ip + 1 }) ∧
    (s.store.fuel < n → step s = .trap TrapCode.OutOfFuel s) := by
  constructor
  · intro h
    unfold step
    rw [hi]
    simp [dispatch, execute_consume_fuel, consume_fuel_unchecked, h,
      next_instr, next_instr_at]
  · intro h
    unfold step
    rw [hi]
    simp [dispatch, execute_consume_fuel, consume_fuel_unchecked,
      Nat.not_le.mpr h]

/-- Concrete state with `ConsumeFuel 2` at the dispatch position and 5
units of fuel. -/
def c3StateA : ExecState :=
  { prog := [[Instruction.ConsumeFuel 2]], func := 0, ip := 0, regs := fun _ => 0,
    callStack := [], cache := ⟨[]⟩, store := ⟨5, true, [], [], []⟩ }

/-- Concrete state with `ConsumeFuel 2` at the dispatch position and only
1 unit of fuel. -/
def c3StateB : ExecState :=
  { prog := [[Instruction.ConsumeFuel 2]], func := 0, ip := 0, regs := fun _ => 0,
    callStack := [], cache := ⟨[]⟩, store := ⟨1, true, [], [], []⟩ }

theorem claim_C3_witness :
    (2 ≤ c3StateA.store.fuel ∧
      step c3StateA =
        .cont { c3StateA with
                  store := { c3StateA.store with fuel := c3StateA.store.fuel - 2 },
                  ip := c3StateA.ip + 1 }) ∧
    (c3StateB.store.fuel < 2 ∧ step c3StateB = .trap TrapCode.OutOfFuel c3StateB) :=
  ⟨⟨by decide, (claim_C3_consume_fuel c3StateA 2 rfl).1 (by decide)⟩,
   ⟨by decide, (claim_C3_consume_fuel c3StateB 2 rfl).2 (by decide)⟩⟩

/-- Claim C5: the four unsigned div/rem instructions with a `NonZero`
16-bit immediate divisor never trap: each dispatch step succeeds
unconditionally (`cont`, never `trap`), writes the quotient or remainder
of the register operand by the immediate into the result register, and
advances `ip` by exactly one word. -/
theorem claim_C5_divrem_uimm16_infallible (s : ExecState) (r reg : Int)
    (imm : {n : Nat // 0 < n}) :
    (fetchInstr s = some (Instruction.I32DivUImm16 r reg imm) →
      step s = .cont { s with regs := setReg s.regs r (s.regs reg % 2 ^ 32 / imm.val),
                              ip := s.ip + 1 }) ∧
    (fetchInstr s = some (Instruction.I32RemUImm16 r reg imm) →
      step s = .cont { s with regs := setReg s.regs r (s.regs reg % 2 ^ 32 % imm.val),
                              ip := s.ip + 1 }) ∧
    (fetchInstr s = some (Instruction.I64DivUImm16 r reg imm) →
      step s = .cont { s with regs := setReg s.regs r (s.regs reg % 2 ^ 64 / imm.val),
                              ip := s.ip + 1 }) ∧
    (fetchInstr s = some (Instruction.I64RemUImm16 r reg imm) →
      step s = .cont { s with regs := setReg s.regs r (s.regs reg % 2 ^ 64 % imm.val),
                              ip := s.ip + 1 }) := by
  refine ⟨?_, ?_, ?_, ?_⟩ <;>
    · intro h
      unfold step
      rw [h]
      simp [dispatch, execute_divrem_imm16, i32_div_u, i32_rem_u, i64_div_u,
        i64_rem_u, set_register, next_instr, next_instr_at]

/-- Concrete state with `I32DivUImm16` (divisor 3) at the dispatch
position; register 1 holds 10. -/
def c5StateA : ExecState :=
  { prog := [[Instruction.I32DivUImm16 0 1 ⟨3, by decide⟩]], func := 0, ip := 0,
    regs := fun x => if x = 1 then 10 else 0,
    callStack := [], cache := ⟨[]⟩, store := ⟨0, false, [], [], []⟩ }

/-- Concrete state with `I64RemUImm16` (divisor 7) at the dispatch
position; register 1 holds 10. -/
def c5StateB : ExecState :=
  { prog := [[Instruction.I64RemUImm16 0 1 ⟨7, by decide⟩]], func := 0, ip := 0,
    regs := fun x => if x = 1 then 10 else 0,
    callStack := [], cache := ⟨[]⟩, store := ⟨0, false, [], [], []⟩ }

theorem claim_C5_witness :
    (step c5StateA =
      .cont { c5StateA with
                regs := setReg c5StateA.regs 0 (c5StateA.regs 1 % 2 ^ 32 / 3),
                ip := c5StateA.ip + 1 }) ∧
    (step c5StateB =
      .cont { c5StateB with
                regs := setReg c5StateB.regs 0 (c5StateB.regs 1 % 2 ^ 64 % 7),
                ip := c5StateB.ip + 1 }) :=
  ⟨(claim_C5_divrem_uimm16_infallible c5StateA 0 1 ⟨3, by decide⟩).1 rfl,
   (claim_C5_divrem_uimm16_infallible c5StateB 0 1 ⟨7, by decide⟩).2.2.2 rfl⟩

/-- Claim C7: the immediate-reversed binary form computes `op` with the
immediate as the first (left) operand and the register value as the second,
and is observationally equal to the register-register form run from a state
in which a scratch register `aux` (distinct from the operand register)
holds the immediate: both runs agree on the result register's new value,
on every register other than the scratch one, and on `ip`, function, call
stack, cache and store. -/
theorem claim_C7_imm16_rev_observational (s : ExecState) (result reg aux : Int)
    (imm : UntypedVal) (op : UntypedVal → UntypedVal → UntypedVal)
    (hne : aux ≠ reg) :
    (execute_binary_imm16_rev s result reg imm op).regs result = op imm (s.regs reg) ∧
    (∀ r2 : Int, r2 ≠ aux →
      (execute_binary_imm16_rev s result reg imm op).regs r2
        = (execute_binary_v2 (set_register s aux imm) result aux reg op).regs r2) ∧
    (execute_binary_imm16_rev s result reg imm op).ip
      = (execute_binary_v2 (set_register s aux imm) result aux reg op).ip ∧
    (execute_binary_imm16_rev s result reg imm op).func
      = (execute_binary_v2 (set_register s aux imm) result aux reg op).func ∧
    (execute_binary_imm16_rev s result reg imm op).callStack
      = (execute_binary_v2 (set_register s aux imm) result aux reg op).callStack ∧
    (execute_binary_imm16_rev s result reg imm op).store
      = (execute_binary_v2 (set_register s aux imm) result aux reg op).store := by
  have hreg : reg ≠ aux := fun h => hne h.symm
  refine ⟨?_, ?_, rfl, rfl, rfl, rfl⟩
  · simp [execute_binary_imm16_rev, set_register, next_instr, next_instr_at,
      setReg_same]
  · intro r2 h2
    by_cases hr : r2 = result
    · subst hr
      simp [execute_binary_imm16_rev, execute_binary_v2, set_register,
        next_instr, next_instr_at, setReg_same, setReg_ne _ _ _ _ hreg]
    · simp [execute_binary_imm16_rev, execute_binary_v2, set_register,
        next_instr, next_instr_at, setReg_ne _ _ _ _ hr, setReg_ne _ _ _ _ h2]

/-- Concrete base state for the C7 witness; register 1 holds 10. -/
def c7State : ExecState :=
  { prog := [[]], func := 0, ip := 0,
    regs := fun x => if x = 1 then 10 else 0,
    callStack := [], cache := ⟨[]⟩, store := ⟨0, false, [], [], []⟩ }

theorem claim_C7_witness :
    ((2 : Int) ≠ 1) ∧
    (execute_binary_imm16_rev c7State 0 1 7 i32_sub).regs 0
      = i32_sub 7 (c7State.regs 1) ∧
    (execute_binary_imm16_rev c7State 0 1 7 i32_sub).regs 0
      = (execute_binary_v2 (set_register c7State 2 7) 0 2 1 i32_sub).regs 0 :=
  ⟨by decide,
   (claim_C7_imm16_rev_observational c7State 0 1 2 7 i32_sub (by decide)).1,
   (claim_C7_imm16_rev_observational c7State 0 1 2 7 i32_sub (by decide)).2.1
     0 (by decide)⟩

/-- Claim C8: the fused compare-with-zero operations each produce an `i32`
boolean in `{0, 1}`, equal to 1 exactly when the `i32` bitwise AND / OR /
XOR of the two cells (taken on their low 32 bits) is zero. -/
theorem claim_C8_fused_eqz_boolean (x y : UntypedVal) :
    (i32_and_eqz x y = 0 ∨ i32_and_eqz x y = 1) ∧
    (i32_and_eqz x y = 1 ↔ (x % 2 ^ 32) &&& (y % 2 ^ 32) = 0) ∧
    (i32_or_eqz x y = 0 ∨ i32_or_eqz x y = 1) ∧
    (i32_or_eqz x y = 1 ↔ (x % 2 ^ 32) ||| (y % 2 ^ 32) = 0) ∧
    (i32_xor_eqz x y = 0 ∨ i32_xor_eqz x y = 1) ∧
    (i32_xor_eqz x y = 1 ↔ (x % 2 ^ 32) ^^^ (y % 2 ^ 32) = 0) := by
  have hx : x % 2 ^ 32 < 2 ^ 32 := Nat.mod_lt _ (by norm_num)
  have hy : y % 2 ^ 32 < 2 ^ 32 := Nat.mod_lt _ (by norm_num)
  have hand : i32_and x y < 2 ^ 32 := Nat.and_lt_two_pow _ hy
  have hor : i32_or x y < 2 ^ 32 := Nat.or_lt_two_pow hx hy
  have hxor : i32_xor x y < 2 ^ 32 := Nat.xor_lt_two_pow hx hy
  refine ⟨ofBool_eq_zero_or_one _, ?_, ofBool_eq_zero_or_one _, ?_,
    ofBool_eq_zero_or_one _, ?_⟩
  · rw [i32_and_eqz, ofBool_eq_one_iff, beq_iff_eq, toI32_eq_zero_iff _ hand]
    exact Iff.rfl
  · rw [i32_or_eqz, ofBool_eq_one_iff, beq_iff_eq, toI32_eq_zero_iff _ hor]
    exact Iff.rfl
  · rw [i32_xor_eqz, ofBool_eq_one_iff, beq_iff_eq, toI32_eq_zero_iff _ hxor]
    exact Iff.rfl

/-- Claim C10: each infallible unary or binary arithmetic handler writes
exactly one value-stack slot — the instruction's result register — leaves
every other slot and the call stack, store (globals, memories, tables) and
the rest of the executor state unchanged, and advances `ip` by exactly one
word. -/
theorem claim_C10_arith_frame_effect (s : ExecState) (result input lhs rhs reg : Int)
    (imm : UntypedVal) (op1 : UntypedVal → UntypedVal)
    (op : UntypedVal → UntypedVal → UntypedVal) :
    ((execute_unary s result input op1).regs result = op1 (s.regs input) ∧
     (∀ r2 : Int, r2 ≠ result → (execute_unary s result input op1).regs r2 = s.regs r2) ∧
     (execute_unary s result input op1).ip = s.ip + 1 ∧
     (execute_unary s result input op1).callStack = s.callStack ∧
     (execute_unary s result input op1).store = s.store ∧
     (execute_unary s result input op1).func = s.func ∧
     (execute_unary s result input op1).cache = s.cache) ∧
    ((execute_binary s result lhs rhs op).regs result = op (s.regs lhs) (s.regs rhs) ∧
     (∀ r2 : Int, r2 ≠ result → (execute_binary s result lhs rhs op).regs r2 = s.regs r2) ∧
     (execute_binary s result lhs rhs op).ip = s.ip + 1 ∧
     (execute_binary s result lhs rhs op).callStack = s.callStack ∧
     (execute_binary s result lhs rhs op).store = s.store ∧
     (execute_binary s result lhs rhs op).func = s.func ∧
     (execute_binary s result lhs rhs op).cache = s.cache) ∧
    ((execute_binary_imm16 s result reg imm op).regs result = op (s.regs reg) imm ∧
     (∀ r2 : Int, r2 ≠ result → (execute_binary_imm16 s result reg imm op).regs r2 = s.regs r2) ∧
     (execute_binary_imm16 s result reg imm op).ip = s.ip + 1 ∧
     (execute_binary_imm16 s result reg imm op).callStack = s.callStack ∧
     (execute_binary_imm16 s result reg imm op).store = s.store ∧
     (execute_binary_imm16 s result reg imm op).func = s.func ∧
     (execute_binary_imm16 s result reg imm op).cache = s.cache) ∧
    ((execute_binary_imm16_rev s result reg imm op).regs result = op imm (s.regs reg) ∧
     (∀ r2 : Int, r2 ≠ result → (execute_binary_imm16_rev s result reg imm op).regs r2 = s.regs r2) ∧
     (execute_binary_imm16_rev s result reg imm op).ip = s.ip + 1 ∧
     (execute_binary_imm16_rev s result reg imm op).callStack = s.callStack ∧
     (execute_binary_imm16_rev s result reg imm op).store = s.store ∧
     (execute_binary_imm16_rev s result reg imm op).func = s.func ∧
     (execute_binary_imm16_rev s result reg imm op).cache = s.cache) := by
  exact ⟨⟨setReg_same _ _ _, fun r2 h2 => setReg_ne _ _ _ _ h2, rfl, rfl, rfl, rfl, rfl⟩,
    ⟨setReg_same _ _ _, fun r2 h2 => setReg_ne _ _ _ _ h2, rfl, rfl, rfl, rfl, rfl⟩,
    ⟨setReg_same _ _ _, fun r2 h2 => setReg_ne _ _ _ _ h2, rfl, rfl, rfl, rfl, rfl⟩,
    ⟨setReg_same _ _ _, fun r2 h2 => setReg_ne _ _ _ _ h2, rfl, rfl, rfl, rfl, rfl⟩⟩

/-- Claim C9: calling the public entry point `execute_instrs` with a call
stack containing no call frame does not trap and does not return an error:
it crashes with the executor's assertion "must have call frame on the call
stack" (and the stack's instance lookup likewise requires a frame); a
pre-seeded root frame is a hard precondition of the public interface. -/
theorem claim_C9_empty_call_stack_crashes (prog : List (List Instruction))
    (cache : Cache) (store : Store) (budget : Nat) :
    execute_instrs prog cache store [] budget
      = .crashed "must have call frame on the call stack" := rfl

/-- Concrete state whose dispatch position holds `RefFunc` while the cached
instance has no function entry, so the `get_entity!` lookup misses. -/
def c4State : ExecState :=
  { prog := [[Instruction.RefFunc 0 0]], func := 0, ip := 0, regs := fun _ => 0,
    callStack := [], cache := ⟨[]⟩, store := ⟨0, false, [], [], []⟩ }

/-- Claim C4 counterexample: at a concrete state whose `RefFunc` entity
lookup misses, the dispatch step is a crash (a Rust panic via
`unreachable!`), not an `Err` carrying `UnreachableCodeReached`; and the
non-`Const32` parameter fetch at the same state likewise surfaces the
`unreachable!` panic message instead of a trap value.  This refutes the
claim that missing-entity lookups and non-`Const32` fetches are surfaced
as `UnreachableCodeReached` traps. -/
theorem claim_C4_counterexample :
    step c4State = .crash "missing Func for the currently used instance" ∧
    isUnreachableTrap (step c4State) = false ∧
    fetch_const32 c4State 0
      = .error "expected an Instruction::Const32 instruction word" :=
  ⟨rfl, rfl, rfl⟩

/-- Concrete state whose dispatch position holds a `Const32 9` word. -/
def c4ConstState : ExecState :=
  { prog := [[Instruction.Const32 9]], func := 0, ip := 0, regs := fun _ => 0,
    callStack := [], cache := ⟨[]⟩, store := ⟨0, false, [], [], []⟩ }

/-- Claim C4 (amended): only trailer words reaching the dispatch position
are surfaced as an `Err` carrying `UnreachableCodeReached` (proved as
claim C2); a lookup of a missing entity for the current instance and a
fetch of a trailer parameter word that is not a `Const32` are invariant
violations surfaced as panics (the `unreachable!` of the `get_entity!`
macro and of `fetch_const32`), never as trap error values, while a
`Const32` parameter fetch succeeds with the carried value. -/
theorem claim_C4_invariant_violation_modes (s : ExecState) (r : Int)
    (f : Nat) (off : Nat) :
    (fetchInstr s = some (Instruction.RefFunc r f) → get_func s f = none →
      step s = .crash "missing Func for the currently used instance") ∧
    (isConst32 (fetchInstrAt s (s.ip + off)) = false →
      fetch_const32 s off
        = .error "expected an Instruction::Const32 instruction word") ∧
    (∀ v : Nat, fetchInstrAt s (s.ip + off) = some (Instruction.Const32 v) →
      fetch_const32 s off = .ok v) := by
  refine ⟨?_, ?_, ?_⟩
  · intro h1 h2
    unfold step
    rw [h1]
    simp [dispatch, execute_ref_func, h2]
  · intro h
    cases hw : fetchInstrAt s (s.ip + off) with
    | none => simp [fetch_const32, hw]
    | some w =>
        rw [hw] at h
        cases w <;> simp_all [fetch_const32, isConst32, hw]
  · intro v hv
    simp [fetch_const32, hv]

theorem claim_C4_witness :
    (fetchInstr c4State = some (Instruction.RefFunc 0 0) ∧
      get_func c4State 0 = none ∧
      step c4State = .crash "missing Func for the currently used instance") ∧
    (isConst32 (fetchInstrAt c4State (c4State.ip + 0)) = false ∧
      fetch_const32 c4State 0
        = .error "expected an Instruction::Const32 instruction word") ∧
    (fetchInstrAt c4ConstState (c4ConstState.ip + 0)
        = some (Instruction.Const32 9) ∧
      fetch_const32 c4ConstState 0 = .ok 9) :=
  ⟨⟨rfl, rfl, (claim_C4_invariant_violation_modes c4State 0 0 0).1 rfl rfl⟩,
   ⟨rfl, (claim_C4_invariant_violation_modes c4State 0 0 0).2.1 rfl⟩,
   ⟨rfl, (claim_C4_invariant_violation_modes c4ConstState 0 0 0).2.2 9 rfl⟩⟩

/-- Local well-formedness of one instruction word at position `p` of a
body of length `blen`: every `ip` movement the word's handler can perform
on the continuing path lands inside a body (this is the guarantee the
validation and translation phase provides for translated programs). -/
def instrOk (prog : List (List Instruction)) (blen p : Nat) : Instruction → Bool
  | .Trap _ => true
  | .ConsumeFuel _ => decide (p + 1 < blen)
  | .Return => true
  | .Branch off =>
      decide (0 ≤ (p : Int) + off) && decide ((p : Int) + off < (blen : Int))
  | .CallInternal f =>
      (match prog.get? f with
       | some callee => decide (0 < callee.length)
       | none => false)
      && decide (p + 1 < blen)
  | .CallImported _ => true
  | .Copy _ _ => decide (p + 1 < blen)
  | .RefFunc _ _ => decide (p + 1 < blen)
  | .I32Add _ _ _ | .I32Sub _ _ _ | .I32Mul _ _ _
  | .I32And _ _ _ | .I32Or _ _ _ | .I32Xor _ _ _
  | .I32AndEqz _ _ _ | .I32OrEqz _ _ _ | .I32XorEqz _ _ _
  | .I32AddImm16 _ _ _ | .I32SubImm16Rev _ _ _
  | .I32DivUImm16 _ _ _ | .I32RemUImm16 _ _ _
  | .I64DivUImm16 _ _ _ | .I64RemUImm16 _ _ _ => decide (p + 1 < blen)
  | .I32WrapI64 _ _ => decide (p + 1 < blen)
  | _ => true

/-- Well-formedness of one body within a program: every position's word is
locally well formed. -/
def bodyOk (prog : List (List Instruction)) (body : List Instruction) : Bool :=
  (List.range body.length).all fun p =>
    match body.get? p with
    | some i => instrOk prog body.length p i
    | none => true

/-- Well-formedness of a translated program: every body is well formed. -/
def wfProg (prog : List (List Instruction)) : Bool := prog.all (bodyOk prog)

/-- A suspended call frame is coherent: its function exists and its resume
point lies inside that function's body. -/
def frameOk (prog : List (List Instruction)) (fr : Frame) : Bool :=
  match prog.get? fr.func with
  | some body => decide (fr.instrPtr < body.length)
  | none => false

/-- The executor state invariant of the claim: `ip` points to a valid
instruction word within the current (topmost) frame's body, and every
suspended frame's resume point does so for its own body. -/
def stateOk (s : ExecState) : Bool :=
  (match s.prog.get? s.func with
   | some body => decide (s.ip < body.length)
   | none => false)
  && s.callStack.all (frameOk s.prog)

theorem stateOk_elim (s : ExecState) (h : stateOk s = true) :
    ∃ body, s.prog.get? s.func = some body ∧ s.ip < body.length ∧
      s.callStack.all (frameOk s.prog) = true := by
  unfold stateOk at h
  cases hb : s.prog.get? s.func with
  | none =>
      rw [hb] at h
      simp at h
  | some body =>
      rw [hb] at h
      rw [Bool.and_eq_true, decide_eq_true_iff] at h
      exact ⟨body, rfl, h.1, h.2⟩

theorem stateOk_of_parts (prog : List (List Instruction)) (func ip : Nat)
    (regs : Int → UntypedVal) (cs : List Frame) (cache : Cache) (store : Store)
    (body : List Instruction) (hb : prog.get? func = some body)
    (hip : ip < body.length) (hst : cs.all (frameOk prog) = true) :
    stateOk (ExecState.mk prog func ip regs cs cache store) = true := by
  unfold stateOk
  simp only [hb]
  rw [Bool.and_eq_true, decide_eq_true_iff]
  exact ⟨hip, hst⟩

theorem frameOk_elim (prog : List (List Instruction)) (fr : Frame)
    (h : frameOk prog fr = true) :
    ∃ body, prog.get? fr.func = some body ∧ fr.instrPtr < body.length := by
  unfold frameOk at h
  cases hb : prog.get? fr.func with
  | none =>
      rw [hb] at h
      cases h
  | some body =>
      rw [hb] at h
      exact ⟨body, rfl, of_decide_eq_true h⟩

theorem wfProg_instrOk (prog : List (List Instruction)) (f : Nat)
    (body : List Instruction) (p : Nat) (i : Instruction)
    (hw : wfProg prog = true) (hb : prog.get? f = some body)
    (hi : body.get? p = some i) :
    instrOk prog body.length p i = true := by
  have hp : p < body.length := by
    by_contra hc
    push_neg at hc
    rw [List.get?_eq_none.mpr hc] at hi
    cases hi
  have hmem : body ∈ prog := List.get?_mem hb
  have h1 : bodyOk prog body = true := by
    rw [wfProg, List.all_eq_true] at hw
    exact hw body hmem
  rw [bodyOk, List.all_eq_true] at h1
  have h2 := h1 p (List.mem_range.mpr hp)
  rw [hi] at h2
  exact h2

/-- Claim C6: for well-formed translated programs, after any handler that
continues the dispatch loop, `ip` points to a valid instruction word
within the body of the current (topmost) call frame — the `+1` advances,
the signed branch displacements and the call/return `ip` transfers all
stay inside the then-current body — and the coherence of every suspended
frame's resume point is preserved along with the program itself. -/
theorem claim_C6_ip_stays_in_bounds (s s2 : ExecState)
    (hwf : wfProg s.prog = true) (hok : stateOk s = true)
    (hstep : step s = .cont s2) :
    stateOk s2 = true ∧ s2.prog = s.prog := by
  obtain ⟨body, hb, hip, hstack⟩ := stateOk_elim s hok
  obtain ⟨i, hi⟩ : ∃ i, body.get? s.ip = some i := by
    cases hg : body.get? s.ip with
    | none =>
        rw [List.get?_eq_none] at hg
        omega
    | some i => exact ⟨i, rfl⟩
  have hio : instrOk s.prog body.length s.ip i = true :=
    wfProg_instrOk s.prog s.func body s.ip i hwf hb hi
  have hfetch : fetchInstr s = some i := by
    unfold fetchInstr fetchInstrAt
    rw [hb]
    exact hi
  unfold step at hstep
  rw [hfetch] at hstep
  cases i
  case Trap c =>
    simp [dispatch, execute_trap] at hstep
  case ConsumeFuel nf =>
    simp only [dispatch, execute_consume_fuel] at hstep
    split at hstep
    · cases hstep
    · injection hstep with he
      subst he
      simp only [instrOk] at hio
      exact ⟨stateOk_of_parts _ _ _ _ _ _ _ body hb (of_decide_eq_true hio) hstack, rfl⟩
  case Return =>
    simp only [dispatch, execute_return] at hstep
    cases hcs : s.callStack with
    | nil =>
        rw [hcs] at hstep
        cases hstep
    | cons fr rest =>
        rw [hcs] at hstep
        injection hstep with he
        subst he
        rw [hcs, List.all_cons, Bool.and_eq_true] at hstack
        obtain ⟨body2, hb2, hip2⟩ := frameOk_elim s.prog fr hstack.1
        exact ⟨stateOk_of_parts _ _ _ _ _ _ _ body2 hb2 hip2 hstack.2, rfl⟩
  case Branch off =>
    simp only [dispatch] at hstep
    injection hstep with he
    subst he
    simp only [instrOk, Bool.and_eq_true, decide_eq_true_iff] at hio
    refine ⟨stateOk_of_parts _ _ _ _ _ _ _ body hb ?_ hstack, rfl⟩
    omega
  case CallInternal f =>
    simp only [dispatch, execute_call_internal] at hstep
    injection hstep with he
    subst he
    simp only [instrOk, Bool.and_eq_true] at hio
    obtain ⟨hA, hB⟩ := hio
    cases hcal : s.prog.get? f with
    | none =>
        rw [hcal] at hA
        cases hA
    | some callee =>
        rw [hcal] at hA
        refine ⟨stateOk_of_parts _ _ _ _ _ _ _ callee hcal (of_decide_eq_true hA) ?_, rfl⟩
        rw [List.all_cons, Bool.and_eq_true]
        refine ⟨?_, hstack⟩
        unfold frameOk
        simp only [hb]
        exact decide_eq_true (of_decide_eq_true hB)
  case CallImported f =>
    simp [dispatch, execute_call_imported] at hstep
  case Copy r v =>
    simp only [dispatch, execute_copy, next_instr, next_instr_at, set_register] at hstep
    injection hstep with he
    subst he
    simp only [instrOk] at hio
    exact ⟨stateOk_of_parts _ _ _ _ _ _ _ body hb (of_decide_eq_true hio) hstack, rfl⟩
  case RefFunc r f =>
    simp only [dispatch, execute_ref_func] at hstep
    split at hstep
    · cases hstep
    · injection hstep with he
      subst he
      simp only [instrOk] at hio
      exact ⟨stateOk_of_parts _ _ _ _ _ _ _ body hb (of_decide_eq_true hio) hstack, rfl⟩
  case I32WrapI64 r inp =>
    simp only [dispatch, execute_unary, next_instr, next_instr_at, set_register] at hstep
    injection hstep with he
    subst he
    simp only [instrOk] at hio
    exact ⟨stateOk_of_parts _ _ _ _ _ _ _ body hb (of_decide_eq_true hio) hstack, rfl⟩
  all_goals
    first
    | (simp [dispatch, invalid_instruction_word, execute_trap] at hstep
       done)
    | (simp only [dispatch, StepResult.cont.injEq] at hstep
       subst hstep
       simp only [instrOk] at hio
       exact ⟨stateOk_of_parts _ _ _ _ _ _ _ body hb (of_decide_eq_true hio) hstack, rfl⟩)

/-- Concrete two-word loop body for the C6 witness: consume one unit of
fuel, then branch back one word. -/
def c6State : ExecState :=
  { prog := [[Instruction.ConsumeFuel 1, Instruction.Branch (-1)]], func := 0,
    ip := 0, regs := fun _ => 0,
    callStack := [], cache := ⟨[]⟩, store := ⟨5, true, [], [], []⟩ }

theorem claim_C6_witness :
    wfProg c6State.prog = true ∧ stateOk c6State = true ∧
    step c6State
      = .cont { c6State with store := { c6State.store with fuel := 4 }, ip := 1 } ∧
    stateOk { c6State with store := { c6State.store with fuel := 4 }, ip := 1 } = true :=
  ⟨by decide, by decide, rfl,
   (claim_C6_ip_stays_in_bounds c6State
     { c6State with store := { c6State.store with fuel := 4 }, ip := 1 }
     (by decide) (by decide) rfl).1⟩

/-- Unfolding equation for `stepIter` at a successor step count. -/
theorem stepIter_succ (k : Nat) (s : ExecState) :
    stepIter (k + 1) s = match step s with
      | .cont s2 => stepIter k s2
      | _ => none := rfl

theorem execute_err_characterization (n : Nat) (s : ExecState) (c : TrapCode)
    (sf : ExecState) :
    execute n s = .err c sf ↔
      ∃ k, k < n ∧ ∃ s2, stepIter k s = some s2 ∧ step s2 = .trap c sf := by
  induction n generalizing s with
  | zero =>
      simp [execute]
  | succ n ih =>
      rw [execute]
      cases hs : step s with
      | cont s2 =>
          rw [ih s2]
          constructor
          · rintro ⟨k, hk, s3, hiter, hstep⟩
            exact ⟨k + 1, by omega, s3, by simp [stepIter_succ, hs, hiter], hstep⟩
          · rintro ⟨k, hk, s3, hiter, hstep⟩
            cases k with
            | zero =>
                simp [stepIter] at hiter
                subst hiter
                rw [hs] at hstep
                cases hstep
            | succ k2 =>
                refine ⟨k2, by omega, s3, ?_, hstep⟩
                rw [stepIter_succ, hs] at hiter
                exact hiter
      | retHost s2 =>
          simp only []
          constructor
          · intro h
            cases h
          · rintro ⟨k, hk, s3, hiter, hstep⟩
            cases k with
            | zero =>
                simp [stepIter] at hiter
                subst hiter
                rw [hs] at hstep
                cases hstep
            | succ k2 =>
                rw [stepIter_succ, hs] at hiter
                cases hiter
      | callHost s2 =>
          simp only []
          constructor
          · intro h
            cases h
          · rintro ⟨k, hk, s3, hiter, hstep⟩
            cases k with
            | zero =>
                simp [stepIter] at hiter
                subst hiter
                rw [hs] at hstep
                cases hstep
            | succ k2 =>
                rw [stepIter_succ, hs] at hiter
                cases hiter
      | trap c2 s2 =>
          constructor
          · intro h
            refine ⟨0, by omega, s, rfl, ?_⟩
            cases h
            exact hs
          · rintro ⟨k, hk, s3, hiter, hstep⟩
            cases k with
            | zero =>
                simp [stepIter] at hiter
                subst hiter
                rw [hs] at hstep
                cases hstep
                rfl
            | succ k2 =>
                rw [stepIter_succ, hs] at hiter
                cases hiter
      | crash msg =>
          constructor
          · intro h
            cases h
          · rintro ⟨k, hk, s3, hiter, hstep⟩
            cases k with
            | zero =>
                simp [stepIter] at hiter
                subst hiter
                rw [hs] at hstep
                cases hstep
            | succ k2 =>
                rw [stepIter_succ, hs] at hiter
                cases hiter

theorem execute_ok_characterization (n : Nat) (s : ExecState) (sf : ExecState) :
    execute n s = .ok sf ↔
      ∃ k, k < n ∧ ∃ s2, stepIter k s = some s2 ∧
        (step s2 = .retHost sf ∨ step s2 = .callHost sf) := by
  induction n generalizing s with
  | zero =>
      simp [execute]
  | succ n ih =>
      rw [execute]
      cases hs : step s with
      | cont s2 =>
          rw [ih s2]
          constructor
          · rintro ⟨k, hk, s3, hiter, hstep⟩
            exact ⟨k + 1, by omega, s3, by simp [stepIter_succ, hs, hiter], hstep⟩
          · rintro ⟨k, hk, s3, hiter, hstep⟩
            cases k with
            | zero =>
                simp [stepIter] at hiter
                subst hiter
                rcases hstep with h | h <;> rw [hs] at h <;> cases h
            | succ k2 =>
                refine ⟨k2, by omega, s3, ?_, hstep⟩
                rw [stepIter_succ, hs] at hiter
                exact hiter
      | retHost s2 =>
          constructor
          · intro h
            cases h
            exact ⟨0, by omega, s, rfl, Or.inl hs⟩
          · rintro ⟨k, hk, s3, hiter, hstep⟩
            cases k with
            | zero =>
                simp [stepIter] at hiter
                subst hiter
                rcases hstep with h | h <;> rw [hs] at h
                · cases h
                  rfl
                · cases h
            | succ k2 =>
                rw [stepIter_succ, hs] at hiter
                cases hiter
      | callHost s2 =>
          constructor
          · intro h
            cases h
            exact ⟨0, by omega, s, rfl, Or.inr hs⟩
          · rintro ⟨k, hk, s3, hiter, hstep⟩
            cases k with
            | zero =>
                simp [stepIter] at hiter
                subst hiter
                rcases hstep with h | h <;> rw [hs] at h
                · cases h
                · cases h
                  rfl
            | succ k2 =>
                rw [stepIter_succ, hs] at hiter
                cases hiter
      | trap c2 s2 =>
          constructor
          · intro h
            cases h
          · rintro ⟨k, hk, s3, hiter, hstep⟩
            cases k with
            | zero =>
                simp [stepIter] at hiter
                subst hiter
                rcases hstep with h | h <;> rw [hs] at h <;> cases h
            | succ k2 =>
                rw [stepIter_succ, hs] at hiter
                cases hiter
      | crash msg =>
          constructor
          · intro h
            cases h
          · rintro ⟨k, hk, s3, hiter, hstep⟩
            cases k with
            | zero =>
                simp [stepIter] at hiter
                subst hiter
                rcases hstep with h | h <;> rw [hs] at h <;> cases h
            | succ k2 =>
                rw [stepIter_succ, hs] at hiter
                cases hiter

/-- Claim C1: the dispatch loop started on a pre-seeded state runs `step`
until the first non-continuing outcome and its result is exactly one of:
`Ok` when a handler returns past the root frame (`retHost`), `Ok` when a
handler requests a host-function invocation (`callHost`), or `Err`
carrying a typed trap code.  On the `Err` path the loop propagates the
handler's trap by early exit: the returned state `sf` is literally the
state the trapping handler produced, so the loop itself modifies neither
the call stack nor anything else after the error. -/
theorem claim_C1_dispatch_loop_contract (n : Nat) (s : ExecState) :
    (∀ sf, execute n s = .ok sf ↔
      ∃ k, k < n ∧ ∃ s2, stepIter k s = some s2 ∧
        (step s2 = .retHost sf ∨ step s2 = .callHost sf)) ∧
    (∀ c sf, execute n s = .err c sf ↔
      ∃ k, k < n ∧ ∃ s2, stepIter k s = some s2 ∧ step s2 = .trap c sf) :=
  ⟨fun sf => execute_ok_characterization n s sf,
   fun c sf => execute_err_characterization n s c sf⟩

/-- Concrete state whose dispatch position holds an explicit `Trap` word. -/
def c1State : ExecState :=
  { prog := [[Instruction.Trap TrapCode.BadSignature]], func := 0, ip := 0,
    regs := fun _ => 0,
    callStack := [], cache := ⟨[]⟩, store := ⟨0, false, [], [], []⟩ }

theorem claim_C1_witness :
    execute 1 c1State = .err TrapCode.BadSignature c1State :=
  ((claim_C1_dispatch_loop_contract 1 c1State).2 TrapCode.BadSignature
    c1State).mpr ⟨0, by decide, c1State, rfl, rfl⟩

theorem claim_C8_witness :
    (i32_and_eqz 3 5 = 1 ↔ (3 % 2 ^ 32) &&& (5 % 2 ^ 32) = 0) ∧
    (i32_xor_eqz 7 7 = 1 ↔ (7 % 2 ^ 32) ^^^ (7 % 2 ^ 32) = 0) :=
  ⟨(claim_C8_fused_eqz_boolean 3 5).2.1,
   (claim_C8_fused_eqz_boolean 7 7).2.2.2.2.2⟩

/-- Concrete base state for the C10 witness; register 1 holds 10,
register 2 holds 4. -/
def c10State : ExecState :=
  { prog := [[]], func := 0, ip := 0,
    regs := fun x => if x = 1 then 10 else if x = 2 then 4 else 0,
    callStack := [], cache := ⟨[]⟩, store := ⟨0, false, [], [], []⟩ }

theorem claim_C10_witness :
    ((5 : Int) ≠ 0) ∧
    (execute_binary c10State 0 1 2 i32_add).regs 5 = c10State.regs 5 ∧
    (execute_binary c10State 0 1 2 i32_add).regs 0
      = i32_add (c10State.regs 1) (c10State.regs 2) :=
  ⟨by decide,
   (claim_C10_arith_frame_effect c10State 0 1 1 2 1 0 id i32_add).2.1.2.1
     5 (by decide),
   (claim_C10_arith_frame_effect c10State 0 1 1 2 1 0 id i32_add).2.1.1⟩

end Wasmi
